import Mathlib

/-!
Verification of the interactive resource selector of the `cumulus` CLI.

This file is a shallow embedding of `internal/ui/selector.go` (the EC2
instance selector; the VM/ASG/LB/context selectors are near-identical
copies of the same state machine).  Go strings are modelled as Lean
`String` values, Go `int` as `Int`, Go slices as Lean lists, and the
bubbletea `Update` method as a pure transition function on the model
record.  `strings.Contains` and `strings.ToLower` are embedded as
executable functions on character lists (`Char.toLower` agrees with
Go's `ToLower` on the ASCII data the selector handles).
-/

/-- Model of `pkgtypes.Instance` (`pkg/types`): an EC2 instance record.
`time.Time` is modelled as an opaque `Nat` tick; the field named `Type`
in Go is `ty` here because `type` is a Lean keyword. -/
structure Instance where
  id : String
  name : String
  privateIP : String
  publicIP : String
  state : String
  ty : String
  az : String
  asg : String
  launchTime : Nat
  cloud : String
deriving DecidableEq

/-- Embedding of `strings.ToLower` (ASCII case folding). -/
def strToLower (s : String) : String :=
  String.mk (s.data.map Char.toLower)

/-- `beginsWith q s` holds when the character list `s` starts with `q`. -/
def beginsWith : List Char → List Char → Bool
  | [], _ => true
  | _ :: _, [] => false
  | a :: as, b :: bs => a == b && beginsWith as bs

/-- `occursIn q s` holds when `q` appears as a contiguous run inside `s`;
this is the search performed by Go's `strings.Contains`. -/
def occursIn (q : List Char) : List Char → Bool
  | [] => q.isEmpty
  | b :: bs => beginsWith q (b :: bs) || occursIn q bs

/-- Embedding of `strings.Contains s sub`. -/
def strContains (s sub : String) : Bool :=
  occursIn sub.data s.data

/-- Specification-side substring relation: `q` occurs contiguously in `s`. -/
def IsSubstr (q s : List Char) : Prop :=
  ∃ pre post, s = pre ++ q ++ post

-- Column-width constants of `internal/ui/selector.go`.

def listHeight : Int := 8
def minWidth : Int := 60
def maxWidth : Int := 120
def colWidthID : Int := 21
def colWidthIP : Int := 15
def colWidthState : Int := 10

/-- The bubbletea `Model` of `internal/ui/selector.go`. -/
structure Model where
  instances : List Instance
  filtered : List Instance
  cursor : Int
  offset : Int
  search : String
  selected : Option Instance
  quitting : Bool
  cancelled : Bool
  termWidth : Int
  contentWidth : Int
  colWidths : List Int
deriving DecidableEq

/-- `calculateWidths`: clamp the content width to `[minWidth, maxWidth]`
and give the name column the remaining width, floored at 10. -/
def calculateWidths (m : Model) : Model :=
  let cw0 := m.termWidth - 2
  let cw1 := if cw0 < minWidth then minWidth else cw0
  let cw := if cw1 > maxWidth then maxWidth else cw1
  let fixedWidth := 3 + colWidthID + 2 + colWidthIP + 2 + colWidthState + 2
  let nw0 := cw - fixedWidth
  let nameWidth := if nw0 < 10 then 10 else nw0
  { m with contentWidth := cw,
           colWidths := [colWidthID, colWidthIP, colWidthState, nameWidth] }

/-- `NewModel`: the freshly constructed selector state. -/
def newModel (instances : List Instance) : Model :=
  calculateWidths
    { instances := instances
      filtered := instances
      cursor := 0
      offset := 0
      search := ""
      selected := none
      quitting := false
      cancelled := false
      termWidth := 80
      contentWidth := 0
      colWidths := [] }

/-- The match test of `filterInstances`: some search field of the
instance, lowercased, contains the (already lowercased) query. -/
def instanceMatches (query : String) (inst : Instance) : Bool :=
  strContains (strToLower inst.name) query ||
  strContains (strToLower inst.id) query ||
  strContains (strToLower inst.privateIP) query ||
  strContains (strToLower inst.asg) query

/-- The list computation inside `filterInstances`: identity for the empty
query, otherwise the filter by `instanceMatches` of the lowercased query. -/
def filterList (instances : List Instance) (search : String) : List Instance :=
  if search = "" then instances
  else instances.filter (instanceMatches (strToLower search))

/-- `filterInstances`: recompute `filtered` from the search query, pull the
cursor back in range when it fell off the end, and reset the scroll offset. -/
def filterInstances (m : Model) : Model :=
  let filtered := filterList m.instances m.search
  let cursor :=
    if m.cursor ≥ (filtered.length : Int) then
      if 0 < filtered.length then (filtered.length : Int) - 1 else 0
    else m.cursor
  { m with filtered := filtered, cursor := cursor, offset := 0 }

/-- Terminal events dispatched to `Update` (the `tea.Msg` values the
selector reacts to). -/
inductive Event where
  | windowSize (width : Int)
  | keyCtrlC
  | keyEsc
  | keyEnter
  | keyUp
  | keyDown
  | keyBackspace
  | keyRunes (s : String)
deriving DecidableEq

/-- The `Update` method of the selector model, as a pure transition
function.  Mirrors `internal/ui/selector.go` case for case; the
`tea.Quit` command is captured by the `quitting` flag. -/
def update (m : Model) : Event → Model
  | .windowSize w => calculateWidths { m with termWidth := w }
  | .keyCtrlC => { m with quitting := true, cancelled := true }
  | .keyEsc => { m with quitting := true, cancelled := true }
  | .keyEnter =>
      if 0 < m.filtered.length then
        { m with selected := m.filtered.get? m.cursor.toNat, quitting := true }
      else m
  | .keyUp =>
      if 0 < m.cursor then
        let cursor := m.cursor - 1
        let offset := if cursor < m.offset then cursor else m.offset
        { m with cursor := cursor, offset := offset }
      else m
  | .keyDown =>
      if m.cursor < (m.filtered.length : Int) - 1 then
        let cursor := m.cursor + 1
        let offset :=
          if cursor ≥ m.offset + listHeight then cursor - listHeight + 1
          else m.offset
        { m with cursor := cursor, offset := offset }
      else m
  | .keyBackspace =>
      if 0 < m.search.data.length then
        filterInstances { m with search := String.mk m.search.data.dropLast }
      else m
  | .keyRunes s =>
      filterInstances { m with search := m.search ++ s }

/-- Dispatch a sequence of events directly to `Update`. -/
def applyEvents (m : Model) (events : List Event) : Model :=
  events.foldl update m

/-- The event-loop driver: dispatch events one at a time, stopping once
the model has quit (after `tea.Quit` the program dispatches no further
events and `p.Run` returns the final model). -/
def runEvents : Model → List Event → Model
  | m, [] => m
  | m, e :: es => if m.quitting then m else runEvents (update m e) es

/-- The error outcomes of `SelectInstance`. -/
inductive SelectError where
  | noInstances
  | runError (msg : String)
  | cancelled
deriving DecidableEq

/-- The Go error message attached to each `SelectInstance` error. -/
def errorMessage : SelectError → String
  | .noInstances => "no instances available"
  | .runError msg => "error running selector: " ++ msg
  | .cancelled => "selection cancelled"

/-- `SelectInstance`: the empty list fails fast before the program is
run; otherwise the driver either fails (`run = .error`) or delivers the
event stream, and cancellation is mapped to the `cancelled` error.  The
result mirrors Go's `(*Instance, error)` pair. -/
def selectInstance (instances : List Instance)
    (run : Except String (List Event)) : Option Instance × Option SelectError :=
  if instances.length = 0 then (none, some .noInstances)
  else
    match run with
    | .error e => (none, some (.runError e))
    | .ok events =>
        let result := runEvents (newModel instances) events
        if result.cancelled then (none, some .cancelled)
        else (result.selected, none)

/-- A sample instance used by concrete scenario theorems. -/
def instA : Instance :=
  { id := "i-0123456789abcdef0"
    name := "alpha-web"
    privateIP := "10.0.0.1"
    publicIP := ""
    state := "running"
    ty := "t3.micro"
    az := "us-east-1a"
    asg := ""
    launchTime := 0
    cloud := "aws" }

/-! ## Substring lemmas relating `strings.Contains` to `IsSubstr` -/

theorem IsSubstr.nil_left (s : List Char) : IsSubstr [] s :=
  ⟨[], s, by simp⟩

theorem strToLower_nil : (strToLower "").data = [] := rfl

theorem beginsWith_iff (q s : List Char) :
    beginsWith q s = true ↔ ∃ post, s = q ++ post := by
  induction q generalizing s with
  | nil => simp [beginsWith]
  | cons a as ih =>
    cases s with
    | nil => simp [beginsWith]
    | cons b bs =>
      simp only [beginsWith, Bool.and_eq_true, beq_iff_eq, ih]
      constructor
      · rintro ⟨rfl, post, rfl⟩
        exact ⟨post, rfl⟩
      · rintro ⟨post, hp⟩
        rw [List.cons_append] at hp
        injection hp with h1 h2
        exact ⟨h1.symm, post, h2⟩

theorem occursIn_iff (q s : List Char) :
    occursIn q s = true ↔ IsSubstr q s := by
  induction s with
  | nil =>
    cases q with
    | nil => exact ⟨fun _ => ⟨[], [], rfl⟩, fun _ => rfl⟩
    | cons c cs =>
      constructor
      · intro hfalse
        exact Bool.noConfusion hfalse
      · rintro ⟨pre, post, hp⟩
        exfalso
        have hlen := congrArg List.length hp
        rw [List.length_append, List.length_append] at hlen
        simp only [List.length_nil, List.length_cons] at hlen
        omega
  | cons b bs ih =>
    simp only [occursIn, Bool.or_eq_true, beginsWith_iff, ih]
    constructor
    · rintro (⟨post, hp⟩ | ⟨pre, post, hp⟩)
      · exact ⟨[], post, by simp [hp]⟩
      · exact ⟨b :: pre, post, by simp [hp]⟩
    · rintro ⟨pre, post, hp⟩
      cases pre with
      | nil => exact Or.inl ⟨post, by simpa using hp⟩
      | cons c cs =>
        simp only [List.cons_append] at hp
        injection hp with h1 h2
        exact Or.inr ⟨cs, post, h2⟩

/-- C1: for every item list and query, the filter retains exactly the
items one of whose search fields (name, ID, private IP, ASG), lowercased,
contains the lowercased query as a substring; the result is a sublist of
the input (relative order preserved); and the empty query returns the
input list itself. -/
theorem filterList_correct (instances : List Instance) (query : String) :
    (query = "" → filterList instances query = instances) ∧
    (filterList instances query).Sublist instances ∧
    (∀ inst, inst ∈ filterList instances query ↔
      inst ∈ instances ∧
        (IsSubstr (strToLower query).data (strToLower inst.name).data ∨
         IsSubstr (strToLower query).data (strToLower inst.id).data ∨
         IsSubstr (strToLower query).data (strToLower inst.privateIP).data ∨
         IsSubstr (strToLower query).data (strToLower inst.asg).data)) := by
  refine ⟨fun h => by simp [filterList, h], ?_, ?_⟩
  · rw [filterList]
    split
    · exact List.Sublist.refl _
    · exact List.filter_sublist _
  · intro inst
    by_cases h : query = ""
    · subst h
      simp only [filterList, if_pos rfl]
      constructor
      · intro hm
        refine ⟨hm, Or.inl ?_⟩
        rw [strToLower_nil]
        exact IsSubstr.nil_left _
      · exact fun hm => hm.1
    · rw [filterList, if_neg h, List.mem_filter]
      simp [instanceMatches, strContains, occursIn_iff, or_assoc]

/-- C1 witness: the filter characterization instantiated at a concrete
list and query. -/
theorem filterList_correct_witness :
    ("ALPHA" = "" → filterList [instA] "ALPHA" = [instA]) ∧
    (filterList [instA] "ALPHA").Sublist [instA] ∧
    (∀ inst, inst ∈ filterList [instA] "ALPHA" ↔
      inst ∈ [instA] ∧
        (IsSubstr (strToLower "ALPHA").data (strToLower inst.name).data ∨
         IsSubstr (strToLower "ALPHA").data (strToLower inst.id).data ∨
         IsSubstr (strToLower "ALPHA").data (strToLower inst.privateIP).data ∨
         IsSubstr (strToLower "ALPHA").data (strToLower inst.asg).data)) :=
  filterList_correct [instA] "ALPHA"

/-- C7: for every terminal width, `calculateWidths` clamps the content
width into `[minWidth, maxWidth] = [60, 120]`, keeps the declared fixed
column widths (ID 21, IP 15, State 10), and gives the name column the
content width minus the fixed column widths minus the inter-column
spacing (cursor 3 + three separators of 2), floored at 10. -/
theorem calculateWidths_spec (m : Model) :
    minWidth ≤ (calculateWidths m).contentWidth ∧
    (calculateWidths m).contentWidth ≤ maxWidth ∧
    (calculateWidths m).colWidths =
      [colWidthID, colWidthIP, colWidthState,
        max 10 ((calculateWidths m).contentWidth -
          ((colWidthID + colWidthIP + colWidthState) + (3 + 2 + 2 + 2)))] := by
  simp only [calculateWidths, minWidth, maxWidth, colWidthID, colWidthIP, colWidthState]
  refine ⟨?_, ?_, ?_⟩
  · split <;> split <;> omega
  · split <;> split <;> omega
  · simp only [List.cons.injEq, and_true, true_and]
    split <;> split <;> omega


/-! ## Reachability invariant of the selector state machine -/

theorem filterList_sublist (instances : List Instance) (s : String) :
    (filterList instances s).Sublist instances := by
  rw [filterList]
  split
  · exact List.Sublist.refl _
  · exact List.filter_sublist _

/-- The cursor clamp performed at the end of `filterInstances`. -/
theorem clamp_spec (c : Int) (n : Nat) (h : 0 ≤ c) :
    0 ≤ (if c ≥ (n : Int) then if 0 < n then (n : Int) - 1 else 0 else c) ∧
    (0 < n → (if c ≥ (n : Int) then if 0 < n then (n : Int) - 1 else 0 else c)
        < (n : Int)) ∧
    (n = 0 → (if c ≥ (n : Int) then if 0 < n then (n : Int) - 1 else 0 else c)
        = 0) := by
  refine ⟨?_, fun hn => ?_, fun hn => ?_⟩ <;> split <;> try split
  all_goals omega

/-- Invariant holding at the fresh model and preserved by every event:
the candidate list is fixed, the filtered list is an order-preserving
sublist of it, the cursor is in range, and a quit is either a
cancellation or carries a selected candidate. -/
def ReachInv (instances : List Instance) (m : Model) : Prop :=
  m.instances = instances ∧
  m.filtered.Sublist instances ∧
  0 ≤ m.cursor ∧
  (0 < m.filtered.length → m.cursor < (m.filtered.length : Int)) ∧
  (m.filtered.length = 0 → m.cursor = 0) ∧
  (m.quitting = true →
    m.cancelled = true ∨ ∃ x, m.selected = some x ∧ x ∈ instances)

theorem inv_newModel (instances : List Instance) :
    ReachInv instances (newModel instances) := by
  refine ⟨rfl, List.Sublist.refl _, le_refl _, fun h => ?_, fun _ => rfl, fun h => ?_⟩
  · show (0 : Int) < (instances.length : Int)
    exact_mod_cast h
  · exact Bool.noConfusion h

theorem inv_filterInstances (instances : List Instance) (m : Model)
    (h : ReachInv instances m) : ReachInv instances (filterInstances m) := by
  obtain ⟨h1, h2, h3, h4, h5, h6⟩ := h
  subst h1
  obtain ⟨hc1, hc2, hc3⟩ :=
    clamp_spec m.cursor (filterList m.instances m.search).length h3
  exact ⟨rfl, filterList_sublist m.instances m.search, hc1, hc2, hc3, h6⟩

theorem inv_update (instances : List Instance) (m : Model) (e : Event)
    (h : ReachInv instances m) : ReachInv instances (update m e) := by
  obtain ⟨h1, h2, h3, h4, h5, h6⟩ := h
  subst h1
  cases e with
  | windowSize w => exact ⟨rfl, h2, h3, h4, h5, h6⟩
  | keyCtrlC => exact ⟨rfl, h2, h3, h4, h5, fun _ => Or.inl rfl⟩
  | keyEsc => exact ⟨rfl, h2, h3, h4, h5, fun _ => Or.inl rfl⟩
  | keyEnter =>
    by_cases hf : 0 < m.filtered.length
    · simp only [update]
      rw [if_pos hf]
      refine ⟨rfl, h2, h3, h4, h5, fun _ => Or.inr ?_⟩
      have hc : m.cursor.toNat < m.filtered.length := by
        have := h4 hf
        omega
      refine ⟨m.filtered.get ⟨m.cursor.toNat, hc⟩, ?_, ?_⟩
      · exact List.get?_eq_get hc
      · exact h2.subset (List.get_mem _ _ _)
    · simp only [update]
      rw [if_neg hf]
      exact ⟨rfl, h2, h3, h4, h5, h6⟩
  | keyUp =>
    by_cases hc : 0 < m.cursor
    · simp only [update]
      rw [if_pos hc]
      refine ⟨rfl, h2, ?_, ?_, ?_, h6⟩
      · show 0 ≤ m.cursor - 1
        omega
      · show 0 < m.filtered.length → m.cursor - 1 < (m.filtered.length : Int)
        intro hl
        have := h4 hl
        omega
      · show m.filtered.length = 0 → m.cursor - 1 = 0
        intro hl
        have := h5 hl
        omega
    · simp only [update]
      rw [if_neg hc]
      exact ⟨rfl, h2, h3, h4, h5, h6⟩
  | keyDown =>
    by_cases hc : m.cursor < (m.filtered.length : Int) - 1
    · simp only [update]
      rw [if_pos hc]
      refine ⟨rfl, h2, ?_, ?_, ?_, h6⟩
      · show 0 ≤ m.cursor + 1
        omega
      · show 0 < m.filtered.length → m.cursor + 1 < (m.filtered.length : Int)
        intro hl
        omega
      · show m.filtered.length = 0 → m.cursor + 1 = 0
        intro hl
        exfalso
        omega
    · simp only [update]
      rw [if_neg hc]
      exact ⟨rfl, h2, h3, h4, h5, h6⟩
  | keyBackspace =>
    by_cases hs : 0 < m.search.data.length
    · simp only [update]
      rw [if_pos hs]
      exact inv_filterInstances m.instances _ ⟨rfl, h2, h3, h4, h5, h6⟩
    · simp only [update]
      rw [if_neg hs]
      exact ⟨rfl, h2, h3, h4, h5, h6⟩
  | keyRunes s =>
    exact inv_filterInstances m.instances _ ⟨rfl, h2, h3, h4, h5, h6⟩

theorem inv_applyEvents (instances : List Instance) (m : Model)
    (events : List Event) (h : ReachInv instances m) :
    ReachInv instances (applyEvents m events) := by
  induction events generalizing m with
  | nil => exact h
  | cons e es ih => exact ih _ (inv_update _ _ _ h)

theorem inv_runEvents (instances : List Instance) (m : Model)
    (events : List Event) (h : ReachInv instances m) :
    ReachInv instances (runEvents m events) := by
  induction events generalizing m with
  | nil => exact h
  | cons e es ih =>
    show ReachInv instances (if m.quitting then m else runEvents (update m e) es)
    split
    · exact h
    · exact ih _ (inv_update _ _ _ h)

/-- The cursor-bound invariant of the specification. -/
def cursorInv (m : Model) : Prop :=
  (0 < m.filtered.length → 0 ≤ m.cursor ∧ m.cursor < (m.filtered.length : Int)) ∧
  (m.filtered.length = 0 → m.cursor = 0)

/-- C2: after any sequence of events dispatched to a freshly constructed
selector state, the cursor satisfies `0 ≤ cursor < len filtered` whenever
the filtered list is non-empty, and `cursor = 0` when it is empty.
(Proved for all events, which includes MoveUp, MoveDown, character input
and backspace.) -/
theorem cursor_bound_invariant (instances : List Instance)
    (events : List Event) :
    cursorInv (applyEvents (newModel instances) events) := by
  obtain ⟨_, _, h3, h4, h5, _⟩ :=
    inv_applyEvents instances _ events (inv_newModel instances)
  exact ⟨fun hl => ⟨h3, h4 hl⟩, h5⟩

/-- C2 witness: the cursor bound evaluated on a concrete session. -/
theorem cursor_bound_invariant_witness :
    cursorInv (applyEvents (newModel [instA])
      [Event.keyDown, Event.keyRunes "zz", Event.keyBackspace]) :=
  cursor_bound_invariant [instA]
    [Event.keyDown, Event.keyRunes "zz", Event.keyBackspace]

/-! ## Scroll visibility (claim C3) -/

/-- The scroll-visibility invariant of the specification:
`scrollOffset ≤ cursor ≤ scrollOffset + visibleHeight - 1`. -/
def scrollInv (m : Model) : Prop :=
  m.offset ≤ m.cursor ∧ m.cursor ≤ m.offset + listHeight - 1

/-- C3 counterexample: from 20 matching items, nine MoveDown events put
the cursor at 9 with scroll offset 2; a character-input event that keeps
all items matching resets the scroll offset to 0 while the cursor stays
at 9, violating `cursor ≤ scrollOffset + visibleHeight - 1`. -/
theorem scroll_invariant_counterexample :
    ¬ scrollInv (applyEvents (newModel (List.replicate 20 instA))
        (List.replicate 9 Event.keyDown ++ [Event.keyRunes "a"])) := by
  unfold scrollInv
  decide

/-- C3 amended: the scroll invariant is preserved by Resize, MoveUp and
MoveDown events; a filter-changing event (character input, or backspace
on a non-empty query) instead resets the scroll offset to 0 and
guarantees only the lower bound `scrollOffset ≤ cursor` — the upper
bound may be violated when the cursor was beyond the first window. -/
theorem scroll_invariant_amended (m : Model) :
    (∀ w : Int, scrollInv m → scrollInv (update m (.windowSize w))) ∧
    (scrollInv m → scrollInv (update m .keyUp)) ∧
    (scrollInv m → scrollInv (update m .keyDown)) ∧
    (0 ≤ m.cursor → ∀ s, (update m (.keyRunes s)).offset = 0 ∧
      (update m (.keyRunes s)).offset ≤ (update m (.keyRunes s)).cursor) ∧
    (0 ≤ m.cursor → update m .keyBackspace = m ∨
      ((update m .keyBackspace).offset = 0 ∧
        (update m .keyBackspace).offset ≤ (update m .keyBackspace).cursor)) := by
  refine ⟨fun w h => h, fun h => ?_, fun h => ?_, fun hc s => ?_, fun hc => ?_⟩
  · obtain ⟨ha, hb⟩ := h
    by_cases hcur : 0 < m.cursor
    · simp only [update]
      rw [if_pos hcur]
      show (if m.cursor - 1 < m.offset then m.cursor - 1 else m.offset) ≤
          m.cursor - 1 ∧
        m.cursor - 1 ≤
          (if m.cursor - 1 < m.offset then m.cursor - 1 else m.offset) +
            listHeight - 1
      simp only [listHeight] at *
      split <;> omega
    · simp only [update]
      rw [if_neg hcur]
      exact ⟨ha, hb⟩
  · obtain ⟨ha, hb⟩ := h
    by_cases hcur : m.cursor < (m.filtered.length : Int) - 1
    · simp only [update]
      rw [if_pos hcur]
      show (if m.cursor + 1 ≥ m.offset + listHeight
            then m.cursor + 1 - listHeight + 1 else m.offset) ≤ m.cursor + 1 ∧
        m.cursor + 1 ≤
          (if m.cursor + 1 ≥ m.offset + listHeight
            then m.cursor + 1 - listHeight + 1 else m.offset) + listHeight - 1
      simp only [listHeight] at *
      split <;> omega
    · simp only [update]
      rw [if_neg hcur]
      exact ⟨ha, hb⟩
  · constructor
    · rfl
    · show (0 : Int) ≤ _
      exact (clamp_spec m.cursor _ hc).1
  · by_cases hs : 0 < m.search.data.length
    · refine Or.inr ⟨?_, ?_⟩
      · simp only [update]
        rw [if_pos hs]
        rfl
      · simp only [update]
        rw [if_pos hs]
        show (0 : Int) ≤ _
        exact (clamp_spec m.cursor _ hc).1
    · refine Or.inl ?_
      simp only [update]
      rw [if_neg hs]

/-- C3 amended witness: the preserved invariant evaluated on a concrete
state, with hypotheses discharged concretely. -/
theorem scroll_invariant_amended_witness :
    scrollInv (update (newModel (List.replicate 20 instA)) Event.keyDown) ∧
    ((update (newModel (List.replicate 20 instA))
        (Event.keyRunes "a")).offset = 0 ∧
      (update (newModel (List.replicate 20 instA))
        (Event.keyRunes "a")).offset ≤
      (update (newModel (List.replicate 20 instA))
        (Event.keyRunes "a")).cursor) :=
  ⟨(scroll_invariant_amended (newModel (List.replicate 20 instA))).2.2.1
      (by unfold scrollInv; decide),
   (scroll_invariant_amended (newModel (List.replicate 20 instA))).2.2.2.1
      (by decide) "a"⟩

/-! ## Terminal-state behaviour (claim C4) -/

/-- C4 counterexample: Esc puts the model in the cancelled terminal
state, yet a subsequently dispatched Enter event still mutates the state
(it overwrites `selected`), so `Update` alone does not make the terminal
state absorbing. -/
theorem terminal_mutation_counterexample :
    (update (newModel [instA]) Event.keyEsc).cancelled = true ∧
    update (update (newModel [instA]) Event.keyEsc) Event.keyEnter ≠
      update (newModel [instA]) Event.keyEsc := by
  constructor
  · rfl
  · decide

/-- C4 amended: the terminal flags are monotone — no event clears
`cancelled` or `quitting` — and the event-loop driver dispatches no
event after `quitting` is set, so within a driver run the state is
never mutated after a terminal state; but `Update` itself does not
ignore a directly dispatched event after the terminal state. -/
theorem terminal_flags_monotone (m : Model) (es : List Event) (e : Event) :
    (m.quitting = true → runEvents m es = m) ∧
    (m.cancelled = true → (update m e).cancelled = true) ∧
    (m.quitting = true → (update m e).quitting = true) := by
  refine ⟨fun hq => ?_, fun hc => ?_, fun hq => ?_⟩
  · cases es with
    | nil => rfl
    | cons e' es' =>
      show (if m.quitting then m else runEvents (update m e') es') = m
      rw [hq]
      rfl
  · cases e <;> simp only [update] <;>
      first
        | rfl
        | exact hc
        | (split <;> first | rfl | exact hc)
  · cases e <;> simp only [update] <;>
      first
        | rfl
        | exact hq
        | (split <;> first | rfl | exact hq)

/-- C4 amended witness: after Esc, the driver dispatches nothing and the
cancelled flag survives a directly dispatched Enter. -/
theorem terminal_flags_monotone_witness :
    runEvents (update (newModel [instA]) Event.keyEsc) [Event.keyEnter] =
      update (newModel [instA]) Event.keyEsc ∧
    (update (update (newModel [instA]) Event.keyEsc)
      Event.keyEnter).cancelled = true :=
  ⟨(terminal_flags_monotone (update (newModel [instA]) Event.keyEsc)
      [Event.keyEnter] Event.keyEnter).1 rfl,
   (terminal_flags_monotone (update (newModel [instA]) Event.keyEsc)
      [Event.keyEnter] Event.keyEnter).2.1 rfl⟩

/-! ## Cancellation outcome (claim C5) -/

/-- C5 counterexample: cancellation is not a successful non-error
outcome — Esc while browsing makes `SelectInstance` return a non-nil
error (the `cancelled` error). -/
theorem cancellation_error_counterexample :
    (selectInstance [instA] (Except.ok [Event.keyEsc])).2 ≠ none ∧
    (selectInstance [instA] (Except.ok [Event.keyEsc])).2 =
      some SelectError.cancelled := by
  constructor
  · decide
  · decide

/-- C5 amended: cancellation is returned by `SelectInstance` as a
distinct non-nil error — distinguishable from the empty-input and
driver-failure errors by value and by message — together with a nil
selected item, so callers can recognize it and stay silent; it is an
error value, not a success outcome. -/
theorem cancellation_distinct_error (instances : List Instance)
    (events : List Event) (hne : instances ≠ [])
    (hc : (runEvents (newModel instances) events).cancelled = true) :
    selectInstance instances (Except.ok events) =
      (none, some SelectError.cancelled) ∧
    SelectError.cancelled ≠ SelectError.noInstances ∧
    (∀ msg, SelectError.cancelled ≠ SelectError.runError msg) ∧
    errorMessage SelectError.cancelled ≠
      errorMessage SelectError.noInstances := by
  refine ⟨?_, ?_, ?_, ?_⟩
  · have hlen : ¬ instances.length = 0 := by
      cases instances with
      | nil => exact absurd rfl hne
      | cons a l => simp
    simp [selectInstance, hlen, hc]
  · decide
  · intro msg h
    cases h
  · decide

/-- C5 amended witness: a concrete cancelled session. -/
theorem cancellation_distinct_error_witness :
    selectInstance [instA] (Except.ok [Event.keyEsc]) =
      (none, some SelectError.cancelled) ∧
    SelectError.cancelled ≠ SelectError.noInstances ∧
    (∀ msg, SelectError.cancelled ≠ SelectError.runError msg) ∧
    errorMessage SelectError.cancelled ≠
      errorMessage SelectError.noInstances :=
  cancellation_distinct_error [instA] [Event.keyEsc] (by decide) (by decide)

/-! ## Empty-input handling (claim C6) -/

/-- C6: for every empty input list `SelectInstance` returns the
descriptive empty-input error regardless of the driver outcome — the
check runs before the event loop, so not even a failing driver is
observed — and for every non-empty input list the empty-input error is
never produced. -/
theorem select_empty_input (run : Except String (List Event)) :
    selectInstance [] run = (none, some SelectError.noInstances) ∧
    (∀ instances : List Instance, instances ≠ [] →
      (selectInstance instances run).2 ≠ some SelectError.noInstances) := by
  constructor
  · rfl
  · intro instances hne
    have hlen : ¬ instances.length = 0 := by
      cases instances with
      | nil => exact absurd rfl hne
      | cons a l => simp
    cases run with
    | error e => simp [selectInstance, hlen]
    | ok events =>
      simp only [selectInstance, if_neg hlen]
      split
      · intro h
        injection h with h2
        cases h2
      · simp

/-- C6 witness: evaluated with a failing driver, showing the empty check
fires first, and with a non-empty list. -/
theorem select_empty_input_witness :
    selectInstance [] (Except.error "no tty") =
      (none, some SelectError.noInstances) ∧
    (selectInstance [instA] (Except.error "no tty")).2 ≠
      some SelectError.noInstances :=
  ⟨(select_empty_input (Except.error "no tty")).1,
   (select_empty_input (Except.error "no tty")).2 [instA] (by decide)⟩

/-! ## MoveDown scenario (claim C8) -/

/-- C8: from the fresh 20-item model (empty query, cursor 0, scroll
offset 0, visible height 8), nine MoveDown events yield cursor 9 and
scroll offset 2. -/
theorem movedown_nine_scenario :
    (newModel (List.replicate 20 instA)).search = "" ∧
    (newModel (List.replicate 20 instA)).cursor = 0 ∧
    (newModel (List.replicate 20 instA)).offset = 0 ∧
    listHeight = 8 ∧
    (applyEvents (newModel (List.replicate 20 instA))
      (List.replicate 9 Event.keyDown)).cursor = 9 ∧
    (applyEvents (newModel (List.replicate 20 instA))
      (List.replicate 9 Event.keyDown)).offset = 2 := by
  refine ⟨rfl, rfl, rfl, rfl, ?_, ?_⟩ <;> decide

/-! ## Select soundness (claim C9) -/

/-- C9: whenever `SelectInstance` returns a non-nil error the selected
item is nil, and whenever it returns a nil error the selected item is
some element of the input list.  The hypothesis states that the driver
run terminated through the state machine quitting, which is the only way
`p.Run` returns without an error. -/
theorem select_sound (instances : List Instance)
    (run : Except String (List Event))
    (hquit : ∀ events, run = Except.ok events →
      (runEvents (newModel instances) events).quitting = true) :
    ((selectInstance instances run).2 ≠ none →
      (selectInstance instances run).1 = none) ∧
    ((selectInstance instances run).2 = none →
      ∃ inst, (selectInstance instances run).1 = some inst ∧
        inst ∈ instances) := by
  by_cases hlen : instances.length = 0
  · simp [selectInstance, hlen]
  · cases run with
    | error e => simp [selectInstance, hlen]
    | ok events =>
      have hq := hquit events rfl
      obtain ⟨_, _, _, _, _, h6⟩ :=
        inv_runEvents instances _ events (inv_newModel instances)
      by_cases hcanc : (runEvents (newModel instances) events).cancelled = true
      · simp [selectInstance, hlen, hcanc]
      · rcases h6 hq with hcase | ⟨x, hx, hmem⟩
        · exact absurd hcase hcanc
        · constructor
          · intro hne
            exfalso
            apply hne
            simp [selectInstance, hlen, hcanc]
          · intro _
            refine ⟨x, ?_, hmem⟩
            simp [selectInstance, hlen, hcanc, hx]

/-- C9 witness: a concrete committed session (Enter on a single-item
list) with the quit hypothesis discharged by evaluation. -/
theorem select_sound_witness :
    ((selectInstance [instA] (Except.ok [Event.keyEnter])).2 ≠ none →
      (selectInstance [instA] (Except.ok [Event.keyEnter])).1 = none) ∧
    ((selectInstance [instA] (Except.ok [Event.keyEnter])).2 = none →
      ∃ inst, (selectInstance [instA] (Except.ok [Event.keyEnter])).1 =
          some inst ∧ inst ∈ [instA]) :=
  select_sound [instA] (Except.ok [Event.keyEnter])
    (fun events h => by cases h; decide)

/-! ## Backspace on an empty query (claim C10) -/

/-- C10: a Backspace event received while the search query is empty
leaves the entire selector state unchanged — in particular the scroll
offset is not reset to 0 as it is on an actual query edit. -/
theorem backspace_empty_noop (m : Model) (h : m.search = "") :
    update m Event.keyBackspace = m := by
  have h0 : m.search.data.length = 0 := by
    rw [h]
    rfl
  simp only [update]
  rw [if_neg (by omega)]

/-- C10 witness: the fresh model has an empty query and Backspace leaves
it unchanged. -/
theorem backspace_empty_noop_witness :
    (newModel [instA]).search = "" ∧
    update (newModel [instA]) Event.keyBackspace = newModel [instA] :=
  ⟨rfl, backspace_empty_noop (newModel [instA]) rfl⟩
